import Mathlib

/-!
Shallow embedding of the `EuroMillions` Solidity contract
(`contracts/EthMillions.sol` in the repository) and proofs about it.

Machine integers: every Solidity `uint256`/`uint8` value that appears here is
modelled as a `Nat`.  No arithmetic in the contract can overflow on the inputs
we consider (pools are sums of `0.01 ether` ticket prices, numbers are in
`[1,50]`), and Solidity 0.8 would revert rather than wrap in any case, so plain
`Nat` arithmetic with explicit `/` and `%` is the faithful model.

Addresses are modelled as `Nat`.  `block.timestamp` is passed to every
operation as an explicit argument `t`.
-/

namespace EthMillions

/-- `TICKET_PRICE = 0.01 ether`, in wei. -/
def TICKET_PRICE : Nat := 10 ^ 16

/-- `HOUSE_FEE_PERCENT = 1`. -/
def HOUSE_FEE_PERCENT : Nat := 1

/-- `NUM_WORDS = 7`: 5 main numbers + 2 lucky stars. -/
def NUM_WORDS : Nat := 7

/-- `7 days`, in seconds: the fixed draw window length used by `_startNewDraw`. -/
def SEVEN_DAYS : Nat := 7 * 24 * 60 * 60

/-! ## Pick validation (`_validateMainNumbers`, `_validateLuckyStars`)

The Solidity functions take fixed-size arrays `uint8[5]` / `uint8[2]`, so a
pick of any other length is unrepresentable at the call boundary; we model the
picks as functions out of `Fin 5` / `Fin 2`.  Each loop iteration first checks
the range `1..max` and then checks the `used` table for a duplicate, reverting
on either violation; we model the revert as the boolean `false` and let
`buyTicket` turn it into the pick-specific error. -/

/-- One pass of the validation loop: the values still to be checked, the values
already marked `used`, and the upper range bound.  Mirrors the loop body of
`_validateMainNumbers` / `_validateLuckyStars`: range check first, then the
duplicate check against `used`. -/
def checkPick : List Nat → List Nat → Nat → Bool
  | [], _, _ => true
  | v :: rest, used, maxV =>
    if v < 1 then false
    else if v > maxV then false
    else if v ∈ used then false
    else checkPick rest (v :: used) maxV

/-- `_validateMainNumbers`: every entry in `1..50`, no duplicates. -/
def _validateMainNumbers (numbers : Fin 5 → Nat) : Bool :=
  checkPick ((List.finRange 5).map numbers) [] 50

/-- `_validateLuckyStars`: every entry in `1..12`, no duplicates. -/
def _validateLuckyStars (stars : Fin 2 → Nat) : Bool :=
  checkPick ((List.finRange 2).map stars) [] 12

/-! ## Sorting (`_sortMainNumbers`, `_sortLuckyStars`)

`_sortMainNumbers` is a bubble sort with a fixed comparison schedule on a
5-element array: pass `i` compares adjacent positions `j` and `j+1` for
`j = 0 .. 3-i`.  We transcribe the exact compare-exchange network. -/

/-- A single compare-exchange: swap the pair when the left component is
larger. -/
def cmpSwap (p : Nat × Nat) : Nat × Nat :=
  if p.1 > p.2 then (p.2, p.1) else p

/-- `_sortMainNumbers`: the four bubble-sort passes of the source on a
5-element array.  On a list of any other length (unrepresentable for the
`uint8[5]` argument) it is the identity. -/
def _sortMainNumbers (l : List Nat) : List Nat :=
  match l with
  | [a0, a1, a2, a3, a4] =>
    let (b0, b1) := cmpSwap (a0, a1)
    let (c1, c2) := cmpSwap (b1, a2)
    let (d2, d3) := cmpSwap (c2, a3)
    let (e3, e4) := cmpSwap (d3, a4)
    let (f0, f1) := cmpSwap (b0, c1)
    let (g1, g2) := cmpSwap (f1, d2)
    let (h2, h3) := cmpSwap (g2, e3)
    let (i0, i1) := cmpSwap (f0, g1)
    let (j1, j2) := cmpSwap (i1, h2)
    let (k0, k1) := cmpSwap (i0, j1)
    [k0, k1, j2, h3, e4]
  | _ => l

/-- `_sortLuckyStars`: a single compare-exchange on a 2-element array. -/
def _sortLuckyStars (l : List Nat) : List Nat :=
  match l with
  | [a0, a1] => if a0 > a1 then [a1, a0] else [a0, a1]
  | _ => l

/-! ## Outcome resolution (`fulfillRandomWords`, number-generation part)

The generation loop for the main numbers is

    do { number = uint8((randomWords[i] % 50) + 1); } while (usedMainNumbers[number]);

Note that the loop body recomputes the very same expression on every
iteration, so the loop either exits after the first test or runs forever.  We
index the loop by explicit `fuel`; `none` means the bound was exhausted
without the loop exiting.  Because the body is constant, `none` for one fuel
value ≥ 1 means `none` for every fuel value: genuine divergence. -/

/-- Errors of the contract's operations, one constructor per revert site.
`IndexOutOfBounds` is the Solidity panic raised by reading `randomWords[i]`
past the end of the array; `LoopStuck` marks a rejection loop that never
exits (on chain: the callback exhausts its gas and reverts). -/
inductive EMErr where
  | InvalidMainNumbers
  | InvalidLuckyStars
  | DrawNotActive
  | DrawAlreadyCompleted
  | InsufficientPayment
  | TransferFailed
  | DrawNotFound
  | RandomnessAlreadyRequested
  | NotOwner
  | EnforcedPause
  | ExpectedPause
  | ActiveDrawExists
  | IndexOutOfBounds
  | LoopStuck
  deriving DecidableEq, Repr

/-- The `do`/`while` rejection loop for one number: compute
`word % m + 1` and retry while the value is already `used`.  The body does not
depend on the iteration, so the recursive call receives identical arguments. -/
def drawOne : Nat → Nat → Nat → List Nat → Option Nat
  | 0, _, _, _ => none
  | fuel + 1, word, m, used =>
    let n := word % m + 1
    if n ∈ used then drawOne fuel word m used else some n

/-- The `for` loop over word indices `idxs`, threading the `used` table:
each index reads `randomWords[i]` (out of bounds is a panic) and runs the
rejection loop, then marks the value used and appends it. -/
def genLoop (fuel : Nat) (words : List Nat) (m : Nat) :
    List Nat → List Nat → Except EMErr (List Nat)
  | [], _ => .ok []
  | i :: rest, used =>
    match words.get? i with
    | none => .error .IndexOutOfBounds
    | some w =>
      match drawOne fuel w m used with
      | none => .error .LoopStuck
      | some n =>
        match genLoop fuel words m rest (n :: used) with
        | .error e => .error e
        | .ok ns => .ok (n :: ns)

/-- The number-generation part of `fulfillRandomWords`: words `0..4` produce
the 5 main numbers modulo 50, words `5..6` produce the 2 lucky stars modulo
12, and both picks are sorted. -/
def generateWinning (fuel : Nat) (words : List Nat) :
    Except EMErr (List Nat × List Nat) :=
  match genLoop fuel words 50 [0, 1, 2, 3, 4] [] with
  | .error e => .error e
  | .ok mains =>
    match genLoop fuel words 12 [5, 6] [] with
    | .error e => .error e
    | .ok luckies => .ok (_sortMainNumbers mains, _sortLuckyStars luckies)

/-! ## Contract state -/

/-- The `Ticket` struct.  The two picks are stored exactly as purchased
(lists of length 5 and 2). -/
structure Ticket where
  mainNumbers : List Nat
  luckyStars : List Nat
  player : Nat
  timestamp : Nat
  deriving DecidableEq, Repr

/-- The `Draw` struct.  `ticketCounts` is the per-player ticket counter
mapping; `players` lists each buyer once, in order of first purchase. -/
structure Drw where
  drawId : Nat
  totalPrizePool : Nat
  totalTickets : Nat
  winningMainNumbers : List Nat
  winningLuckyStars : List Nat
  winners : List Nat
  isCompleted : Bool
  randomnessRequested : Bool
  drawStartTime : Nat
  drawEndTime : Nat
  ticketCounts : Nat → Nat
  players : List Nat

/-- A zero-initialized `Draw` storage slot, as Solidity leaves an untouched
mapping entry. -/
def Drw.empty : Drw :=
  { drawId := 0
    totalPrizePool := 0
    totalTickets := 0
    winningMainNumbers := [0, 0, 0, 0, 0]
    winningLuckyStars := [0, 0]
    winners := []
    isCompleted := false
    randomnessRequested := false
    drawStartTime := 0
    drawEndTime := 0
    ticketCounts := fun _ => 0
    players := [] }

/-- The contract's storage, plus its ether `balance` and the (immutable)
`owner` set at deployment. -/
structure EMState where
  currentDrawId : Nat
  draws : Nat → Drw
  playerTickets : Nat → Nat → List Ticket
  vrfRequestIdToDraw : Nat → Nat
  paused : Bool
  balance : Nat
  owner : Nat

/-- `_startNewDraw`: increment `currentDrawId` and (re)initialize the fields
the code assigns; fields it does not assign (`winners`, winning numbers,
`ticketCounts`, `players`) keep their previous storage contents, which for a
fresh id are the zero values. -/
def _startNewDraw (s : EMState) (t : Nat) : EMState :=
  let newId := s.currentDrawId + 1
  let old := s.draws newId
  let nd : Drw :=
    { old with
      drawId := newId
      drawStartTime := t
      drawEndTime := t + SEVEN_DAYS
      totalPrizePool := 0
      totalTickets := 0
      isCompleted := false
      randomnessRequested := false }
  { s with currentDrawId := newId, draws := Function.update s.draws newId nd }

/-- The constructor: zero storage, then `_startNewDraw` creates draw 1 at
deployment time `t0`. -/
def initialState (ownerA t0 : Nat) : EMState :=
  _startNewDraw
    { currentDrawId := 0
      draws := fun _ => Drw.empty
      playerTickets := fun _ _ => []
      vrfRequestIdToDraw := fun _ => 0
      paused := false
      balance := 0
      owner := ownerA } t0

/-! ## Operations -/

/-- `buyTicket`.  Guard order follows the source: the `onlyActiveDraw`
modifier, then `whenNotPaused`, then the `msg.value` check, then main-number
validation, then lucky-star validation.  `sender` is `msg.sender`, `value` is
`msg.value`, `t` is `block.timestamp`. -/
def buyTicket (s : EMState) (t sender value : Nat)
    (mains : Fin 5 → Nat) (stars : Fin 2 → Nat) : Except EMErr EMState :=
  let cur := s.draws s.currentDrawId
  if t < cur.drawStartTime ∨ t > cur.drawEndTime then .error .DrawNotActive
  else if s.paused then .error .EnforcedPause
  else if value ≠ TICKET_PRICE then .error .InsufficientPayment
  else if ¬ _validateMainNumbers mains then .error .InvalidMainNumbers
  else if ¬ _validateLuckyStars stars then .error .InvalidLuckyStars
  else
    let tk : Ticket :=
      { mainNumbers := (List.finRange 5).map mains
        luckyStars := (List.finRange 2).map stars
        player := sender
        timestamp := t }
    let newPlayers :=
      if cur.ticketCounts sender = 0 then cur.players ++ [sender] else cur.players
    let cur1 :=
      { cur with
        players := newPlayers
        ticketCounts := Function.update cur.ticketCounts sender (cur.ticketCounts sender + 1)
        totalTickets := cur.totalTickets + 1
        totalPrizePool := cur.totalPrizePool + value }
    .ok
      { s with
        draws := Function.update s.draws s.currentDrawId cur1
        playerTickets :=
          Function.update s.playerTickets s.currentDrawId
            (Function.update (s.playerTickets s.currentDrawId) sender
              (s.playerTickets s.currentDrawId sender ++ [tk]))
        balance := s.balance + value }

/-- `requestDrawRandomness`.  `onlyOwner` first, then the three body guards in
source order; on success the flag is set and the fresh VRF `reqId` (chosen by
the coordinator) is mapped to the current draw. -/
def requestDrawRandomness (s : EMState) (t caller reqId : Nat) :
    Except EMErr EMState :=
  if caller ≠ s.owner then .error .NotOwner
  else
    let cur := s.draws s.currentDrawId
    if t ≤ cur.drawEndTime then .error .DrawNotActive
    else if cur.randomnessRequested then .error .RandomnessAlreadyRequested
    else if cur.isCompleted then .error .DrawAlreadyCompleted
    else
      .ok
        { s with
          draws :=
            Function.update s.draws s.currentDrawId { cur with randomnessRequested := true }
          vrfRequestIdToDraw :=
            Function.update s.vrfRequestIdToDraw reqId s.currentDrawId }

/-- `_isWinningTicket`: sort the ticket's picks and compare them position by
position with the (already sorted) winning picks. -/
def _isWinningTicket (tk : Ticket) (winMains winStars : List Nat) : Bool :=
  _sortMainNumbers tk.mainNumbers = winMains ∧ _sortLuckyStars tk.luckyStars = winStars

/-- The winner-collection double loop of `_findWinnersAndDistribute`: iterate
the draw's players in order, for each player their tickets in order, and
record the player once per winning ticket. -/
def collectWinners (s : EMState) (drawId : Nat) (winMains winStars : List Nat) : List Nat :=
  (s.draws drawId).players.flatMap fun p =>
    ((s.playerTickets drawId p).filter fun tk => _isWinningTicket tk winMains winStars).map
      fun _ => p

/-- `_findWinnersAndDistribute`: record the winners list and the completion
flag, then (when there is at least one winning ticket) transfer the house fee
to the owner and `prizePerWinner` to each winning ticket, and finally
`_startNewDraw`.  Returns the new state together with the list of performed
transfers `(recipient, amount)` in execution order. -/
def _findWinnersAndDistribute (s : EMState) (t drawId : Nat) :
    EMState × List (Nat × Nat) :=
  let d := s.draws drawId
  let finalWinners := collectWinners s drawId d.winningMainNumbers d.winningLuckyStars
  let winnerCount := finalWinners.length
  let d1 := { d with winners := finalWinners, isCompleted := true }
  let s1 := { s with draws := Function.update s.draws drawId d1 }
  if 0 < winnerCount then
    let houseFee := d.totalPrizePool * HOUSE_FEE_PERCENT / 100
    let totalWinnings := d.totalPrizePool - houseFee
    let prizePerWinner := totalWinnings / winnerCount
    let transfers := (s.owner, houseFee) :: finalWinners.map fun w => (w, prizePerWinner)
    let s2 := { s1 with balance := s1.balance - (houseFee + prizePerWinner * winnerCount) }
    (_startNewDraw s2 t, transfers)
  else
    (_startNewDraw s1 t, [])

/-- `fulfillRandomWords`: look up the draw for the request id; if it is
already completed, return silently with the state untouched; otherwise
generate the winning numbers (see `generateWinning`), store them, and settle
via `_findWinnersAndDistribute`. -/
def fulfillRandomWords (s : EMState) (t fuel reqId : Nat) (randomWords : List Nat) :
    Except EMErr EMState :=
  let drawId := s.vrfRequestIdToDraw reqId
  let d := s.draws drawId
  if d.isCompleted then .ok s
  else
    match generateWinning fuel randomWords with
    | .error e => .error e
    | .ok (wm, ws) =>
      let d1 := { d with winningMainNumbers := wm, winningLuckyStars := ws }
      let s1 := { s with draws := Function.update s.draws drawId d1 }
      .ok (_findWinnersAndDistribute s1 t drawId).1

/-- `pause` (`onlyOwner`; OpenZeppelin `_pause` requires not-yet-paused). -/
def pause (s : EMState) (caller : Nat) : Except EMErr EMState :=
  if caller ≠ s.owner then .error .NotOwner
  else if s.paused then .error .EnforcedPause
  else .ok { s with paused := true }

/-- `unpause` (`onlyOwner`; OpenZeppelin `_unpause` requires paused). -/
def unpause (s : EMState) (caller : Nat) : Except EMErr EMState :=
  if caller ≠ s.owner then .error .NotOwner
  else if ¬ s.paused then .error .ExpectedPause
  else .ok { s with paused := false }

/-- `emergencyWithdraw` (`onlyOwner whenPaused`, then
`require(draws[currentDrawId].isCompleted)`); on success the whole balance is
transferred to the owner. -/
def emergencyWithdraw (s : EMState) (caller : Nat) :
    Except EMErr (EMState × List (Nat × Nat)) :=
  if caller ≠ s.owner then .error .NotOwner
  else if ¬ s.paused then .error .ExpectedPause
  else if ¬ (s.draws s.currentDrawId).isCompleted then .error .ActiveDrawExists
  else .ok ({ s with balance := 0 }, [(s.owner, s.balance)])

/-! ## Reachability

One step is one externally triggered, serially executed transaction (a revert
leaves the state unchanged, so only `ok` results yield steps), or the clock
advancing.  `block.timestamp` never decreases. -/

/-- One transition of the contract: the clock ticks forward, or one of the
public operations executes successfully at the current time. -/
inductive Step : EMState → Nat → EMState → Nat → Prop where
  | tick {s : EMState} {t t' : Nat} : t ≤ t' → Step s t s t'
  | buy {s s' : EMState} {t sender value : Nat} {mains : Fin 5 → Nat} {stars : Fin 2 → Nat} :
      buyTicket s t sender value mains stars = .ok s' → Step s t s' t
  | request {s s' : EMState} {t caller reqId : Nat} :
      requestDrawRandomness s t caller reqId = .ok s' → Step s t s' t
  | fulfill {s s' : EMState} {t fuel reqId : Nat} {words : List Nat} :
      fulfillRandomWords s t fuel reqId words = .ok s' → Step s t s' t
  | pauseStep {s s' : EMState} {t caller : Nat} :
      pause s caller = .ok s' → Step s t s' t
  | unpauseStep {s s' : EMState} {t caller : Nat} :
      unpause s caller = .ok s' → Step s t s' t
  | emergency {s s' : EMState} {t caller : Nat} {tr : List (Nat × Nat)} :
      emergencyWithdraw s caller = .ok (s', tr) → Step s t s' t

/-- Zero or more steps. -/
inductive Reach : EMState → Nat → EMState → Nat → Prop where
  | refl {s : EMState} {t : Nat} : Reach s t s t
  | tail {s s' s'' : EMState} {t t' t'' : Nat} :
      Reach s t s' t' → Step s' t' s'' t'' → Reach s t s'' t''

/-- A state (with its clock) reachable from some deployment. -/
def Reachable (s : EMState) (t : Nat) : Prop :=
  ∃ ownerA t0, Reach (initialState ownerA t0) t0 s t

/-! ## Auxiliary definitions for the proofs -/

/-- One attempted ticket purchase: a call to `buyTicket` with its
`block.timestamp`, `msg.sender`, `msg.value` and the two picks. -/
structure Purchase where
  t : Nat
  sender : Nat
  value : Nat
  mains : Fin 5 → Nat
  stars : Fin 2 → Nat

/-- Execute one purchase attempt; a revert leaves the state unchanged. -/
def applyPurchase (s : EMState) (p : Purchase) : EMState :=
  match buyTicket s p.t p.sender p.value p.mains p.stars with
  | .ok s' => s'
  | .error _ => s

/-- Execute a sequence of purchase attempts. -/
def applyPurchases (s : EMState) (ps : List Purchase) : EMState :=
  ps.foldl applyPurchase s

/-- The bookkeeping invariant of the current draw while tickets are being
sold: the pool is the ticket price times the ticket counter, the counter is
the number of stored ticket records, the player set lists each buyer exactly
once (namely, exactly the senders with at least one stored ticket), and the
per-player counters agree with the stored records. -/
def TicketInv (s : EMState) : Prop :=
  (s.draws s.currentDrawId).totalPrizePool
      = TICKET_PRICE * (s.draws s.currentDrawId).totalTickets
  ∧ (s.draws s.currentDrawId).totalTickets
      = ((s.draws s.currentDrawId).players.map
          (fun p => (s.playerTickets s.currentDrawId p).length)).sum
  ∧ (s.draws s.currentDrawId).players.Nodup
  ∧ (∀ p, p ∈ (s.draws s.currentDrawId).players
      ↔ s.playerTickets s.currentDrawId p ≠ [])
  ∧ (∀ p, (s.draws s.currentDrawId).ticketCounts p
      = (s.playerTickets s.currentDrawId p).length)

/-- The clock-related invariant: the current draw is never completed, and
once its randomness flag is set the clock is strictly past its window end. -/
def ClockInv (s : EMState) (t : Nat) : Prop :=
  (s.draws s.currentDrawId).isCompleted = false
  ∧ ((s.draws s.currentDrawId).randomnessRequested = true →
      (s.draws s.currentDrawId).drawEndTime < t)

/-- A state with draw 1 pending: randomness was requested at time 604801
(just after the first window closes) under VRF request id 9. -/
def pendingState : EMState :=
  match requestDrawRandomness (initialState 0 0) 604801 0 9 with
  | .ok s => s
  | .error _ => initialState 0 0

/-- The state after draw 1 was settled by a 7-word delivery for request 9. -/
def settledState : EMState :=
  match fulfillRandomWords pendingState 604801 1 9 [0, 1, 2, 3, 4, 0, 1] with
  | .ok s => s
  | .error _ => pendingState

/-- The state after player 7 bought one ticket `[1,2,3,4,5]` / `[1,2]` in the
first window. -/
def buyState : EMState :=
  match buyTicket (initialState 0 0) 5 7 TICKET_PRICE ![1, 2, 3, 4, 5] ![1, 2] with
  | .ok s => s
  | .error _ => initialState 0 0

/-- `buyState` just after `fulfillRandomWords` stored the winning picks
`[1,2,3,4,5]` / `[1,2]` for draw 1 and immediately before
`_findWinnersAndDistribute` runs. -/
def preSettleState : EMState :=
  { buyState with
    draws :=
      Function.update buyState.draws 1
        { buyState.draws 1 with
          winningMainNumbers := [1, 2, 3, 4, 5]
          winningLuckyStars := [1, 2] } }

/-! ## Validation lemmas -/

/-- Characterization of the validation loop: it accepts exactly when every
value is in range, the values are pairwise distinct, and none of them was
already marked used. -/
lemma checkPick_spec (l : List Nat) : ∀ (used : List Nat) (maxV : Nat),
    checkPick l used maxV = true ↔
      (∀ v ∈ l, 1 ≤ v ∧ v ≤ maxV) ∧ l.Nodup ∧ ∀ v ∈ l, v ∉ used := by
  induction l with
  | nil => intro used maxV; simp [checkPick]
  | cons v rest ih =>
    intro used maxV
    simp only [checkPick]
    split_ifs with h1 h2 h3
    · simp only [false_iff]
      rintro ⟨hr, -, -⟩
      have := (hr v (List.mem_cons_self v rest)).1
      omega
    · simp only [false_iff]
      rintro ⟨hr, -, -⟩
      have := (hr v (List.mem_cons_self v rest)).2
      omega
    · simp only [false_iff]
      rintro ⟨-, -, hu⟩
      exact hu v (List.mem_cons_self v rest) h3
    · rw [ih]
      constructor
      · rintro ⟨hr, hnd, hu⟩
        refine ⟨?_, ?_, ?_⟩
        · intro x hx
          rcases List.mem_cons.mp hx with hx | hx
          · subst hx; omega
          · exact hr x hx
        · refine List.nodup_cons.mpr ⟨?_, hnd⟩
          intro hv
          exact hu v hv (List.mem_cons_self v used)
        · intro x hx
          rcases List.mem_cons.mp hx with hx | hx
          · subst hx; exact h3
          · intro hxu
            exact hu x hx (List.mem_cons_of_mem v hxu)
      · rintro ⟨hr, hnd, hu⟩
        refine ⟨?_, ?_, ?_⟩
        · intro x hx; exact hr x (List.mem_cons_of_mem v hx)
        · exact (List.nodup_cons.mp hnd).2
        · intro x hx hxvu
          rcases List.mem_cons.mp hxvu with hxv | hxu
          · exact (List.nodup_cons.mp hnd).1 (hxv ▸ hx)
          · exact hu x (List.mem_cons_of_mem v hx) hxu

/-- Values of a pick as a list. -/
lemma mem_map_finRange {n : Nat} (f : Fin n → Nat) (v : Nat) :
    v ∈ (List.finRange n).map f ↔ ∃ i, f i = v := by
  simp [List.mem_map]

/-- Nodup of the value list of a pick is injectivity of the pick. -/
lemma nodup_map_finRange {n : Nat} (f : Fin n → Nat) :
    ((List.finRange n).map f).Nodup ↔ Function.Injective f := by
  rw [List.nodup_map_iff_inj_on (List.nodup_finRange n)]
  constructor
  · intro h i j hij
    exact h i (List.mem_finRange i) j (List.mem_finRange j) hij
  · intro h i _ j _ hij
    exact h hij

/-! ## Resolution-loop lemmas -/

/-- If the candidate value is already used, the rejection loop never exits,
whatever the step bound: the body recomputes the identical value. -/
lemma drawOne_of_mem (fuel w m : Nat) (used : List Nat)
    (h : w % m + 1 ∈ used) : drawOne fuel w m used = none := by
  induction fuel with
  | zero => rfl
  | succ n ih => simp only [drawOne, if_pos h]; exact ih

/-- If the candidate value is fresh, the loop exits on its first test. -/
lemma drawOne_of_not_mem (fuel w m : Nat) (used : List Nat)
    (h : w % m + 1 ∉ used) : drawOne (fuel + 1) w m used = some (w % m + 1) := by
  simp only [drawOne, if_neg h]

/-- Reading an index below the cut is unaffected by truncating the word list. -/
lemma genLoop_take (fuel m k : Nat) (words : List Nat) (idxs : List Nat)
    (h : ∀ i ∈ idxs, i < k) : ∀ used,
    genLoop fuel (words.take k) m idxs used = genLoop fuel words m idxs used := by
  induction idxs with
  | nil => intro used; rfl
  | cons i rest ih =>
    intro used
    have hi : i < k := h i (List.mem_cons_self i rest)
    simp only [genLoop, List.get?_take hi]
    cases hw : words.get? i with
    | none => rfl
    | some w =>
      dsimp only
      cases hd : drawOne fuel w m used with
      | none => rfl
      | some n =>
        dsimp only
        rw [ih (fun j hj => h j (List.mem_cons_of_mem i hj))]

/-- When every index is in bounds, the generation loop never raises the
out-of-bounds panic. -/
lemma genLoop_no_oob (fuel m : Nat) (words : List Nat) (idxs : List Nat)
    (h : ∀ i ∈ idxs, i < words.length) : ∀ used,
    genLoop fuel words m idxs used ≠ .error .IndexOutOfBounds := by
  induction idxs with
  | nil => intro used; simp [genLoop]
  | cons i rest ih =>
    intro used
    have hi : i < words.length := h i (List.mem_cons_self i rest)
    have hsome : ∃ w, words.get? i = some w := by
      cases hw : words.get? i with
      | none => exact absurd (List.get?_eq_none.mp hw) (by omega)
      | some w => exact ⟨w, rfl⟩
    obtain ⟨w, hw⟩ := hsome
    simp only [genLoop, hw]
    cases hd : drawOne fuel w m used with
    | none => simp
    | some n =>
      dsimp only
      have hrec := ih (fun j hj => h j (List.mem_cons_of_mem i hj)) (n :: used)
      cases hg : genLoop fuel words m rest (n :: used) with
      | error e =>
        rw [hg] at hrec
        dsimp only
        intro hcontra
        apply hrec
        rw [← hcontra]
      | ok ns => simp

/-- Truncating the delivered words to the first 7 does not change the
generated outcome: only indices 0..6 are ever read. -/
lemma generateWinning_take (fuel : Nat) (words : List Nat) :
    generateWinning fuel (words.take 7) = generateWinning fuel words := by
  unfold generateWinning
  rw [genLoop_take fuel 50 7 words [0, 1, 2, 3, 4] (by decide) [],
    genLoop_take fuel 12 7 words [5, 6] (by decide) []]

/-- With at least 7 delivered words the generator never hits the
out-of-bounds panic. -/
lemma generateWinning_no_oob (fuel : Nat) (words : List Nat) (h : 7 ≤ words.length) :
    generateWinning fuel words ≠ .error .IndexOutOfBounds := by
  unfold generateWinning
  have h1 := genLoop_no_oob fuel 50 words [0, 1, 2, 3, 4]
    (fun i hi => by simp at hi; omega) []
  have h2 := genLoop_no_oob fuel 12 words [5, 6]
    (fun i hi => by simp at hi; omega) []
  cases hmain : genLoop fuel words 50 [0, 1, 2, 3, 4] [] with
  | error e =>
    rw [hmain] at h1
    intro hc
    injection hc with he
    exact h1 (by rw [he])
  | ok mains =>
    cases hstars : genLoop fuel words 12 [5, 6] [] with
    | error e =>
      rw [hstars] at h2
      intro hc
      injection hc with he
      exact h2 (by rw [he])
    | ok luckies => simp

/-! ## Claim C1 -/

/-- C1 (code evaluation at the failing input): the claim states that outcome
resolution terminates for every delivered sequence of 7 random words.  The
code's rejection loop recomputes `uint8((randomWords[i] % 50) + 1)` from the
same word on every iteration, so as soon as two of the first five words are
congruent modulo 50 the loop can never exit: for the delivery
`[0,0,0,0,0,0,0]` the resolution fails to produce a pick under every step
bound `fuel`, i.e. the loop diverges (on chain the callback exhausts its gas
and reverts, and the draw can never be settled). -/
theorem claim_C1_resolution_diverges (fuel : Nat) :
    generateWinning fuel [0, 0, 0, 0, 0, 0, 0] = .error .LoopStuck := by
  cases fuel with
  | zero => rfl
  | succ n =>
    have h2 : drawOne n 0 50 [1] = none := drawOne_of_mem n 0 50 [1] (by decide)
    simp [generateWinning, genLoop, drawOne, h2]

/-! ## Claim C2 -/

/-- C2 counterexample: the claim states that a delivery whose word count
differs from 7 fails with `MalformedRandomness`.  The contract defines no
such error and performs no word-count check: delivering 8 words for the
pending draw succeeds silently (the 8th word is ignored). -/
theorem claim_C2_counterexample :
    ∃ s', fulfillRandomWords pendingState 604801 1 9 [0, 1, 2, 3, 4, 0, 1, 99]
      = Except.ok s' := ⟨_, rfl⟩

/-- C2 amended: delivery performs no word-count check at all.  Only the first
7 words are read (any extras are silently ignored), and with at least 7 words
the call never raises the out-of-bounds panic — the only length-related
failure, which occurs in place of any `MalformedRandomness` error when fewer
than 7 words survive to an access. -/
theorem claim_C2_amended (s : EMState) (t fuel reqId : Nat) (words : List Nat) :
    fulfillRandomWords s t fuel reqId words
      = fulfillRandomWords s t fuel reqId (words.take 7)
    ∧ (7 ≤ words.length →
        fulfillRandomWords s t fuel reqId words ≠ .error .IndexOutOfBounds) := by
  unfold fulfillRandomWords
  by_cases hc : (s.draws (s.vrfRequestIdToDraw reqId)).isCompleted
  · simp [hc]
  · simp only [hc, if_false, Bool.false_eq_true, if_neg]
    rw [generateWinning_take]
    refine ⟨rfl, ?_⟩
    intro hlen
    have hno := generateWinning_no_oob fuel words hlen
    cases hg : generateWinning fuel words with
    | error e =>
      rw [hg] at hno
      intro hcontra
      injection hcontra with he
      exact hno (by rw [he])
    | ok p => cases p with | mk wm ws => simp

/-- C2 amended, witness: a delivery of exactly 7 words at the initial state
does not raise the out-of-bounds panic. -/
theorem claim_C2_amended_witness :
    fulfillRandomWords (initialState 0 0) 0 3 0 [0, 1, 2, 3, 4, 0, 1]
      ≠ .error .IndexOutOfBounds :=
  (claim_C2_amended (initialState 0 0) 0 3 0 [0, 1, 2, 3, 4, 0, 1]).2 (by decide)

/-! ## Claim C6 -/

/-- C6: delivering randomness whose request token maps to an already
completed draw is a silent no-op: the call raises no error and returns the
state completely unchanged, so a duplicate or replayed delivery can never
settle a draw a second time. -/
theorem claim_C6_completed_delivery_noop (s : EMState) (t fuel reqId : Nat)
    (words : List Nat)
    (h : (s.draws (s.vrfRequestIdToDraw reqId)).isCompleted = true) :
    fulfillRandomWords s t fuel reqId words = Except.ok s := by
  unfold fulfillRandomWords
  simp [h]

/-- C6 witness: replaying a delivery for the settled draw returns the settled
state unchanged. -/
theorem claim_C6_witness :
    fulfillRandomWords settledState 604802 1 9 [5, 6, 7, 8, 9, 3, 4]
      = Except.ok settledState :=
  claim_C6_completed_delivery_noop settledState 604802 1 9 [5, 6, 7, 8, 9, 3, 4]
    (by decide)

/-! ## Claim C10 -/

/-- C10: pick validation.  A main pick (whose length 5 is enforced by the
`uint8[5]` calldata type) is accepted exactly when every value lies in
`[1,50]` and no value repeats, and a lucky-star pick (length 2 by type)
exactly when every value lies in `[1,12]` and no value repeats; `buyTicket`
surfaces a rejection as the pick-specific error `InvalidMainNumbers` /
`InvalidLuckyStars`. -/
theorem claim_C10_validation (numbers : Fin 5 → Nat) (stars : Fin 2 → Nat) :
    (_validateMainNumbers numbers = true ↔
      (∀ i, 1 ≤ numbers i ∧ numbers i ≤ 50) ∧ Function.Injective numbers)
    ∧ (_validateLuckyStars stars = true ↔
      (∀ i, 1 ≤ stars i ∧ stars i ≤ 12) ∧ Function.Injective stars)
    ∧ (∀ s t sender,
        (s.draws s.currentDrawId).drawStartTime ≤ t →
        t ≤ (s.draws s.currentDrawId).drawEndTime →
        s.paused = false →
        (buyTicket s t sender TICKET_PRICE numbers stars = .error .InvalidMainNumbers
            ↔ _validateMainNumbers numbers = false)
          ∧ (_validateMainNumbers numbers = true →
            (buyTicket s t sender TICKET_PRICE numbers stars = .error .InvalidLuckyStars
              ↔ _validateLuckyStars stars = false))) := by
  refine ⟨?_, ?_, ?_⟩
  · unfold _validateMainNumbers
    rw [checkPick_spec, nodup_map_finRange]
    constructor
    · rintro ⟨hr, hinj, -⟩
      exact ⟨fun i => hr (numbers i) (List.mem_map.mpr ⟨i, List.mem_finRange i, rfl⟩), hinj⟩
    · rintro ⟨hr, hinj⟩
      refine ⟨?_, hinj, by simp⟩
      intro v hv
      obtain ⟨i, -, rfl⟩ := List.mem_map.mp hv
      exact hr i
  · unfold _validateLuckyStars
    rw [checkPick_spec, nodup_map_finRange]
    constructor
    · rintro ⟨hr, hinj, -⟩
      exact ⟨fun i => hr (stars i) (List.mem_map.mpr ⟨i, List.mem_finRange i, rfl⟩), hinj⟩
    · rintro ⟨hr, hinj⟩
      refine ⟨?_, hinj, by simp⟩
      intro v hv
      obtain ⟨i, -, rfl⟩ := List.mem_map.mp hv
      exact hr i
  · intro s t sender h1 h2 hp
    unfold buyTicket
    rw [if_neg (by omega), if_neg (by simp [hp]), if_neg (by simp)]
    constructor
    · by_cases hm : _validateMainNumbers numbers
      · rw [if_neg (by simp [hm])]
        by_cases hs : _validateLuckyStars stars
        · rw [if_neg (by simp [hs])]
          simp [hm]
        · rw [if_pos (by simp [hs])]
          simp [hm]
      · rw [if_pos (by simp [hm])]
        simp [Bool.not_eq_true] at hm
        simp [hm]
    · intro hm
      rw [if_neg (by simp [hm])]
      by_cases hs : _validateLuckyStars stars
      · rw [if_neg (by simp [hs])]
        simp [hs]
      · rw [if_pos (by simp [hs])]
        simp [Bool.not_eq_true] at hs
        simp [hs]

/-- C10 witness: at the initial state, during the open window, an
out-of-range main pick is rejected with `InvalidMainNumbers` and a duplicate
lucky-star pick with `InvalidLuckyStars`, while fully valid picks pass both
validators. -/
theorem claim_C10_witness :
    buyTicket (initialState 0 0) 5 7 TICKET_PRICE ![1, 2, 3, 4, 51] ![1, 2]
        = .error .InvalidMainNumbers
    ∧ buyTicket (initialState 0 0) 5 7 TICKET_PRICE ![1, 2, 3, 4, 5] ![3, 3]
        = .error .InvalidLuckyStars
    ∧ _validateMainNumbers ![50, 2, 3, 4, 5] = true := by
  refine ⟨?_, ?_, by decide⟩
  · exact ((claim_C10_validation ![1, 2, 3, 4, 51] ![1, 2]).2.2
      (initialState 0 0) 5 7 (by decide) (by decide) (by decide)).1.mpr (by decide)
  · exact ((claim_C10_validation ![1, 2, 3, 4, 5] ![3, 3]).2.2
      (initialState 0 0) 5 7 (by decide) (by decide) (by decide)).2 (by decide) |>.mpr
      (by decide)

/-! ## Claim C8 -/

/-- C8: `buyTicket` fails with `DrawNotActive` exactly when the time is
outside `[windowStart, windowEnd]`, and is accepted inside the window when
the remaining guards pass; a resolution request fails with `DrawNotActive`
whenever `now ≤ windowEnd`.  In particular at `now = windowEnd` a purchase is
still accepted and a resolution request is rejected. -/
theorem claim_C8_window_boundary (s : EMState) (t : Nat) :
    (∀ sender value mains stars,
      buyTicket s t sender value mains stars = .error .DrawNotActive
        ↔ (t < (s.draws s.currentDrawId).drawStartTime
            ∨ (s.draws s.currentDrawId).drawEndTime < t))
    ∧ (∀ sender mains stars,
        (s.draws s.currentDrawId).drawStartTime ≤ t →
        t ≤ (s.draws s.currentDrawId).drawEndTime →
        s.paused = false →
        _validateMainNumbers mains = true →
        _validateLuckyStars stars = true →
        ∃ s', buyTicket s t sender TICKET_PRICE mains stars = .ok s')
    ∧ (∀ reqId, t ≤ (s.draws s.currentDrawId).drawEndTime →
        requestDrawRandomness s t s.owner reqId = .error .DrawNotActive) := by
  refine ⟨?_, ?_, ?_⟩
  · intro sender value mains stars
    unfold buyTicket
    by_cases hcond :
        t < (s.draws s.currentDrawId).drawStartTime
          ∨ t > (s.draws s.currentDrawId).drawEndTime
    · rw [if_pos hcond]
      simp [hcond]
    · rw [if_neg hcond]
      constructor
      · intro hc
        split_ifs at hc <;> simp at hc
      · intro hc
        exact absurd hc hcond
  · intro sender mains stars h1 h2 hp hm hs
    unfold buyTicket
    rw [if_neg (by omega), if_neg (by simp [hp]), if_neg (by simp),
      if_neg (by simp [hm]), if_neg (by simp [hs])]
    exact ⟨_, rfl⟩
  · intro reqId hle
    unfold requestDrawRandomness
    rw [if_neg (fun hc => hc rfl), if_pos hle]

/-- C8 witness: at the very instant the first window ends (`t = 604800`), a
valid purchase is accepted and a resolution request is rejected with
`DrawNotActive`. -/
theorem claim_C8_witness :
    (∃ s', buyTicket (initialState 0 0) 604800 7 TICKET_PRICE ![1, 2, 3, 4, 5] ![1, 2]
      = .ok s')
    ∧ requestDrawRandomness (initialState 0 0) 604800 (initialState 0 0).owner 3
      = .error .DrawNotActive := by
  constructor
  · exact (claim_C8_window_boundary (initialState 0 0) 604800).2.1 7
      ![1, 2, 3, 4, 5] ![1, 2] (by decide) (by decide) (by decide) (by decide) (by decide)
  · exact (claim_C8_window_boundary (initialState 0 0) 604800).2.2 3 (by decide)

/-! ## Claim C5 -/

/-- C5: settling a draw with zero winning tickets performs no transfer at all
(the contract balance is unchanged), records an empty winners list, and still
marks the draw completed. -/
theorem claim_C5_zero_winners (s : EMState) (t drawId : Nat)
    (hw : collectWinners s drawId (s.draws drawId).winningMainNumbers
      (s.draws drawId).winningLuckyStars = [])
    (hid : drawId ≠ s.currentDrawId + 1) :
    (_findWinnersAndDistribute s t drawId).2 = []
    ∧ (_findWinnersAndDistribute s t drawId).1.balance = s.balance
    ∧ ((_findWinnersAndDistribute s t drawId).1.draws drawId).winners = []
    ∧ ((_findWinnersAndDistribute s t drawId).1.draws drawId).isCompleted = true := by
  simp only [_findWinnersAndDistribute]
  rw [hw]
  simp only [List.length_nil]
  rw [if_neg (lt_irrefl 0)]
  refine ⟨rfl, rfl, ?_, ?_⟩ <;>
    simp [_startNewDraw, Function.update_noteq hid, Function.update_same]

/-- C5 witness: settling draw 1 of a fresh deployment (no tickets, hence no
winners) transfers nothing, keeps the balance, stores an empty winners list
and completes the draw. -/
theorem claim_C5_witness :
    (_findWinnersAndDistribute (initialState 0 0) 604801 1).2 = []
    ∧ (_findWinnersAndDistribute (initialState 0 0) 604801 1).1.balance
      = (initialState 0 0).balance
    ∧ ((_findWinnersAndDistribute (initialState 0 0) 604801 1).1.draws 1).winners = []
    ∧ ((_findWinnersAndDistribute (initialState 0 0) 604801 1).1.draws 1).isCompleted
      = true :=
  claim_C5_zero_winners (initialState 0 0) 604801 1 (by decide) (by decide)

/-! ## Claim C4 -/

/-- Counting occurrences in a flat-map of replicates over a duplicate-free
list. -/
lemma count_flatMap_replicate (l : List Nat) (f : Nat → Nat) (q : Nat)
    (h : l.Nodup) :
    (l.flatMap fun p => List.replicate (f p) p).count q
      = if q ∈ l then f q else 0 := by
  induction l with
  | nil => simp
  | cons a rest ih =>
    rcases List.nodup_cons.mp h with ⟨ha, hrest⟩
    by_cases hq : q = a
    · subst hq
      simp [List.count_append, List.count_replicate, ih hrest, ha]
    · simp [List.count_append, List.count_replicate, ih hrest, hq]
      exact fun hc => (hq hc.symm).elim

/-- The winner list collects each player once per winning ticket. -/
lemma collectWinners_eq_flatMap (s : EMState) (drawId : Nat) (wm ws : List Nat) :
    collectWinners s drawId wm ws
      = (s.draws drawId).players.flatMap fun p =>
          List.replicate
            ((s.playerTickets drawId p).filter
              (fun tk => _isWinningTicket tk wm ws)).length p := by
  unfold collectWinners
  congr 1
  funext p
  exact List.map_const' _ p

/-- C4: settling a draw whose winner scan finds `k > 0` winning tickets pays
the operator `houseFee = pool * 1 / 100` (truncating division) and then pays
`floor((pool - houseFee) / k)` once per winning ticket, in that order; a
player appears in the winner list once per winning ticket they hold; the
truncation remainder `(pool - houseFee) % k` is transferred to nobody and
remains in the contract balance. -/
theorem claim_C4_settlement_split (s : EMState) (t drawId : Nat)
    (hk : collectWinners s drawId (s.draws drawId).winningMainNumbers
      (s.draws drawId).winningLuckyStars ≠ [])
    (hbal : (s.draws drawId).totalPrizePool ≤ s.balance)
    (hnd : (s.draws drawId).players.Nodup) :
    (_findWinnersAndDistribute s t drawId).2
      = (s.owner, (s.draws drawId).totalPrizePool * HOUSE_FEE_PERCENT / 100)
        :: (collectWinners s drawId (s.draws drawId).winningMainNumbers
              (s.draws drawId).winningLuckyStars).map
            (fun w => (w, ((s.draws drawId).totalPrizePool
                - (s.draws drawId).totalPrizePool * HOUSE_FEE_PERCENT / 100)
              / (collectWinners s drawId (s.draws drawId).winningMainNumbers
                  (s.draws drawId).winningLuckyStars).length))
    ∧ (_findWinnersAndDistribute s t drawId).1.balance
        + ((s.draws drawId).totalPrizePool * HOUSE_FEE_PERCENT / 100
          + ((s.draws drawId).totalPrizePool
              - (s.draws drawId).totalPrizePool * HOUSE_FEE_PERCENT / 100)
            / (collectWinners s drawId (s.draws drawId).winningMainNumbers
                (s.draws drawId).winningLuckyStars).length
            * (collectWinners s drawId (s.draws drawId).winningMainNumbers
                (s.draws drawId).winningLuckyStars).length)
      = s.balance
    ∧ (s.draws drawId).totalPrizePool * HOUSE_FEE_PERCENT / 100
        + ((s.draws drawId).totalPrizePool
            - (s.draws drawId).totalPrizePool * HOUSE_FEE_PERCENT / 100)
          / (collectWinners s drawId (s.draws drawId).winningMainNumbers
              (s.draws drawId).winningLuckyStars).length
          * (collectWinners s drawId (s.draws drawId).winningMainNumbers
              (s.draws drawId).winningLuckyStars).length
        + ((s.draws drawId).totalPrizePool
            - (s.draws drawId).totalPrizePool * HOUSE_FEE_PERCENT / 100)
          % (collectWinners s drawId (s.draws drawId).winningMainNumbers
              (s.draws drawId).winningLuckyStars).length
      = (s.draws drawId).totalPrizePool
    ∧ ∀ p, (collectWinners s drawId (s.draws drawId).winningMainNumbers
        (s.draws drawId).winningLuckyStars).count p
      = if p ∈ (s.draws drawId).players
        then ((s.playerTickets drawId p).filter
          (fun tk => _isWinningTicket tk (s.draws drawId).winningMainNumbers
            (s.draws drawId).winningLuckyStars)).length
        else 0 := by
  have hk' : 0 < (collectWinners s drawId (s.draws drawId).winningMainNumbers
      (s.draws drawId).winningLuckyStars).length :=
    List.length_pos.mpr hk
  have hfee : (s.draws drawId).totalPrizePool * HOUSE_FEE_PERCENT / 100
      ≤ (s.draws drawId).totalPrizePool := by
    calc (s.draws drawId).totalPrizePool * HOUSE_FEE_PERCENT / 100
        ≤ (s.draws drawId).totalPrizePool * HOUSE_FEE_PERCENT / 100 * 100 / 100 *
          1 + (s.draws drawId).totalPrizePool * HOUSE_FEE_PERCENT / 100 * 0 := by omega
      _ ≤ (s.draws drawId).totalPrizePool := by
          have h100 := Nat.div_mul_le_self
            ((s.draws drawId).totalPrizePool * HOUSE_FEE_PERCENT) 100
          have : (s.draws drawId).totalPrizePool * HOUSE_FEE_PERCENT
              = (s.draws drawId).totalPrizePool := by
            unfold HOUSE_FEE_PERCENT; omega
          omega
  have hq : ((s.draws drawId).totalPrizePool
        - (s.draws drawId).totalPrizePool * HOUSE_FEE_PERCENT / 100)
      / (collectWinners s drawId (s.draws drawId).winningMainNumbers
          (s.draws drawId).winningLuckyStars).length
      * (collectWinners s drawId (s.draws drawId).winningMainNumbers
          (s.draws drawId).winningLuckyStars).length
      + ((s.draws drawId).totalPrizePool
          - (s.draws drawId).totalPrizePool * HOUSE_FEE_PERCENT / 100)
        % (collectWinners s drawId (s.draws drawId).winningMainNumbers
            (s.draws drawId).winningLuckyStars).length
      = (s.draws drawId).totalPrizePool
        - (s.draws drawId).totalPrizePool * HOUSE_FEE_PERCENT / 100 := by
    rw [mul_comm]
    exact Nat.div_add_mod _ _
  refine ⟨?_, ?_, ?_, ?_⟩
  · simp only [_findWinnersAndDistribute]
    rw [if_pos hk']
  · simp only [_findWinnersAndDistribute]
    rw [if_pos hk']
    show s.balance - _ + _ = s.balance
    omega
  · omega
  · intro p
    rw [collectWinners_eq_flatMap, count_flatMap_replicate _ _ _ hnd]

/-- C4 witness: in `preSettleState` (pool `10^16` wei from one ticket, which
exactly matches the stored winning picks) settlement transfers the house fee
`10^14` to the owner and the prize `(10^16 - 10^14) / 1` to player 7. -/
theorem claim_C4_witness :
    (_findWinnersAndDistribute preSettleState 604802 1).2
      = [(0, 10 ^ 16 * HOUSE_FEE_PERCENT / 100),
         (7, (10 ^ 16 - 10 ^ 16 * HOUSE_FEE_PERCENT / 100) / 1)] := by
  have h := claim_C4_settlement_split preSettleState 604802 1
    (by decide) (by decide) (by decide)
  rw [h.1]
  decide

/-! ## Success forms of the operations -/

/-- A successful `buyTicket` call: the guards all passed and the new state is
the recorded update. -/
lemma buyTicket_ok_eq (s : EMState) (t sender value : Nat) (mains : Fin 5 → Nat)
    (stars : Fin 2 → Nat) (s' : EMState)
    (h : buyTicket s t sender value mains stars = .ok s') :
    value = TICKET_PRICE
    ∧ ¬ (t < (s.draws s.currentDrawId).drawStartTime
        ∨ (s.draws s.currentDrawId).drawEndTime < t)
    ∧ s.paused = false
    ∧ s' = { s with
        draws := Function.update s.draws s.currentDrawId
          { s.draws s.currentDrawId with
            players := if (s.draws s.currentDrawId).ticketCounts sender = 0
              then (s.draws s.currentDrawId).players ++ [sender]
              else (s.draws s.currentDrawId).players
            ticketCounts := Function.update (s.draws s.currentDrawId).ticketCounts
              sender ((s.draws s.currentDrawId).ticketCounts sender + 1)
            totalTickets := (s.draws s.currentDrawId).totalTickets + 1
            totalPrizePool := (s.draws s.currentDrawId).totalPrizePool + value }
        playerTickets := Function.update s.playerTickets s.currentDrawId
          (Function.update (s.playerTickets s.currentDrawId) sender
            (s.playerTickets s.currentDrawId sender ++
              [{ mainNumbers := (List.finRange 5).map mains
                 luckyStars := (List.finRange 2).map stars
                 player := sender
                 timestamp := t }]))
        balance := s.balance + value } := by
  simp only [buyTicket] at h
  split_ifs at h with h1 h2 h3 h4 h5 h6 <;> try exact Except.noConfusion h
  all_goals injection h with h
  all_goals refine ⟨not_not.mp h3, h1, by simpa using h2, ?_⟩
  all_goals rw [← h]
  all_goals try rw [if_pos h6]
  all_goals try rw [if_neg h6]
  all_goals try rfl

/-- A successful `requestDrawRandomness` call. -/
lemma requestDrawRandomness_ok_eq (s : EMState) (t caller reqId : Nat)
    (s' : EMState) (h : requestDrawRandomness s t caller reqId = .ok s') :
    caller = s.owner
    ∧ (s.draws s.currentDrawId).drawEndTime < t
    ∧ (s.draws s.currentDrawId).randomnessRequested = false
    ∧ (s.draws s.currentDrawId).isCompleted = false
    ∧ s' = { s with
        draws := Function.update s.draws s.currentDrawId
          { s.draws s.currentDrawId with randomnessRequested := true }
        vrfRequestIdToDraw :=
          Function.update s.vrfRequestIdToDraw reqId s.currentDrawId } := by
  simp only [requestDrawRandomness] at h
  split_ifs at h with h1 h2 h3 h4 <;>
    first
      | exact Except.noConfusion h
      | skip
  injection h with h
  exact ⟨not_not.mp h1, by omega, by simpa using h3, by simpa using h4, h.symm⟩

/-- A successful `fulfillRandomWords` call: either the mapped draw was
already completed and the state is unchanged, or the winning numbers were
generated, stored, and the draw settled. -/
lemma fulfillRandomWords_ok_cases (s : EMState) (t fuel reqId : Nat)
    (words : List Nat) (s' : EMState)
    (h : fulfillRandomWords s t fuel reqId words = .ok s') :
    ((s.draws (s.vrfRequestIdToDraw reqId)).isCompleted = true ∧ s' = s)
    ∨ ((s.draws (s.vrfRequestIdToDraw reqId)).isCompleted = false
      ∧ ∃ wm ws, generateWinning fuel words = .ok (wm, ws)
        ∧ s' = (_findWinnersAndDistribute
            { s with
              draws := Function.update s.draws (s.vrfRequestIdToDraw reqId)
                  { s.draws (s.vrfRequestIdToDraw reqId) with
                    winningMainNumbers := wm
                    winningLuckyStars := ws } }
            t (s.vrfRequestIdToDraw reqId)).1) := by
  simp only [fulfillRandomWords] at h
  by_cases hc : (s.draws (s.vrfRequestIdToDraw reqId)).isCompleted
  · rw [if_pos hc] at h
    injection h with h
    exact Or.inl ⟨hc, h.symm⟩
  · rw [if_neg hc] at h
    cases hg : generateWinning fuel words with
    | error e => rw [hg] at h; cases h
    | ok p =>
      cases p with
      | mk wm ws =>
        rw [hg] at h
        injection h with h
        exact Or.inr ⟨by simpa using hc, wm, ws, rfl, h.symm⟩

/-- A successful `pause` call. -/
lemma pause_ok_eq (s : EMState) (caller : Nat) (s' : EMState)
    (h : pause s caller = .ok s') : s' = { s with paused := true } := by
  unfold pause at h
  split_ifs at h <;>
    first
      | exact Except.noConfusion h
      | skip
  injection h with h
  exact h.symm

/-- A successful `unpause` call. -/
lemma unpause_ok_eq (s : EMState) (caller : Nat) (s' : EMState)
    (h : unpause s caller = .ok s') : s' = { s with paused := false } := by
  unfold unpause at h
  split_ifs at h <;>
    first
      | exact Except.noConfusion h
      | skip
  injection h with h
  exact h.symm

/-- A successful `emergencyWithdraw` call requires the current draw to be
completed and only zeroes the balance. -/
lemma emergencyWithdraw_ok_eq (s : EMState) (caller : Nat) (s' : EMState)
    (tr : List (Nat × Nat)) (h : emergencyWithdraw s caller = .ok (s', tr)) :
    (s.draws s.currentDrawId).isCompleted = true
    ∧ s' = { s with balance := 0 } := by
  unfold emergencyWithdraw at h
  split_ifs at h with h1 h2 h3 <;>
    first
      | exact Except.noConfusion h
      | skip
  injection h with h
  injection h with ha hb
  exact ⟨by simpa using h3, ha.symm⟩

/-! ## Structure of the settlement state -/

/-- Settlement always increments the current draw id. -/
lemma findWinners_currentDrawId (s : EMState) (t drawId : Nat) :
    (_findWinnersAndDistribute s t drawId).1.currentDrawId = s.currentDrawId + 1 := by
  simp only [_findWinnersAndDistribute]
  split_ifs <;> rfl

/-- After settlement the (new) current draw is fresh: not completed and with
no randomness requested. -/
lemma findWinners_fresh_current (s : EMState) (t drawId : Nat) :
    ((_findWinnersAndDistribute s t drawId).1.draws
        (_findWinnersAndDistribute s t drawId).1.currentDrawId).isCompleted = false
    ∧ ((_findWinnersAndDistribute s t drawId).1.draws
        (_findWinnersAndDistribute s t drawId).1.currentDrawId).randomnessRequested
      = false := by
  simp only [_findWinnersAndDistribute]
  split_ifs <;> simp [_startNewDraw, Function.update_same]

/-- Settlement does not change the randomness flag of any draw other than the
freshly created one. -/
lemma findWinners_flag (s : EMState) (t drawId d : Nat)
    (hd : d ≠ s.currentDrawId + 1) :
    ((_findWinnersAndDistribute s t drawId).1.draws d).randomnessRequested
      = (s.draws d).randomnessRequested := by
  simp only [_findWinnersAndDistribute]
  split_ifs <;>
    · simp only [_startNewDraw, Function.update_noteq hd]
      by_cases hdd : d = drawId
      · subst hdd; simp [Function.update_same]
      · simp [Function.update_noteq hdd]

/-! ## Reachability invariants -/

/-- `ClockInv` holds at deployment. -/
lemma ClockInv_initial (ownerA t0 : Nat) : ClockInv (initialState ownerA t0) t0 := by
  unfold ClockInv initialState _startNewDraw
  simp [Function.update_same]

/-- Every step preserves `ClockInv`. -/
lemma step_ClockInv {s s' : EMState} {t t' : Nat} (hst : Step s t s' t')
    (h : ClockInv s t) : ClockInv s' t' := by
  cases hst with
  | tick hle => exact ⟨h.1, fun hf => lt_of_lt_of_le (h.2 hf) hle⟩
  | buy hb =>
    obtain ⟨-, -, -, rfl⟩ := buyTicket_ok_eq _ _ _ _ _ _ _ hb
    refine ⟨?_, ?_⟩ <;> simp only [Function.update_same]
    · exact h.1
    · exact h.2
  | request hr =>
    obtain ⟨-, hlt, -, hcomp, rfl⟩ := requestDrawRandomness_ok_eq _ _ _ _ _ hr
    refine ⟨?_, ?_⟩ <;> simp only [Function.update_same]
    · exact hcomp
    · exact fun _ => hlt
  | fulfill hf =>
    rcases fulfillRandomWords_ok_cases _ _ _ _ _ _ hf with ⟨-, rfl⟩ | ⟨-, wm, ws, -, rfl⟩
    · exact h
    · refine ⟨(findWinners_fresh_current _ _ _).1, fun hc => ?_⟩
      rw [(findWinners_fresh_current _ _ _).2] at hc
      simp at hc
  | pauseStep hp =>
    obtain rfl := pause_ok_eq _ _ _ hp
    exact h
  | unpauseStep hp =>
    obtain rfl := unpause_ok_eq _ _ _ hp
    exact h
  | emergency he =>
    obtain ⟨hcomp, rfl⟩ := emergencyWithdraw_ok_eq _ _ _ _ he
    exact absurd hcomp (by simp [h.1])

/-- `ClockInv` holds along every run. -/
lemma reach_ClockInv {s0 s : EMState} {t0 t : Nat} (hr : Reach s0 t0 s t)
    (h : ClockInv s0 t0) : ClockInv s t := by
  induction hr with
  | refl => exact h
  | tail _ hst ih => exact step_ClockInv hst (ih h)

/-- `ClockInv` holds in every reachable state. -/
lemma reachable_ClockInv {s : EMState} {t : Nat} (h : Reachable s t) :
    ClockInv s t := by
  obtain ⟨ownerA, t0, hr⟩ := h
  exact reach_ClockInv hr (ClockInv_initial ownerA t0)

/-- Once set, the randomness flag of a draw at or below the current id stays
set, and the current id never decreases. -/
lemma step_flag_persist {s s' : EMState} {t t' : Nat} (hst : Step s t s' t')
    (d : Nat) (hd : d ≤ s.currentDrawId)
    (hf : (s.draws d).randomnessRequested = true) :
    d ≤ s'.currentDrawId ∧ (s'.draws d).randomnessRequested = true := by
  cases hst with
  | tick hle => exact ⟨hd, hf⟩
  | buy hb =>
    obtain ⟨-, -, -, rfl⟩ := buyTicket_ok_eq _ _ _ _ _ _ _ hb
    refine ⟨hd, ?_⟩
    by_cases hdc : d = s.currentDrawId
    · subst hdc; simpa [Function.update_same] using hf
    · simpa [Function.update_noteq hdc] using hf
  | request hr =>
    obtain ⟨-, -, -, -, rfl⟩ := requestDrawRandomness_ok_eq _ _ _ _ _ hr
    refine ⟨hd, ?_⟩
    by_cases hdc : d = s.currentDrawId
    · subst hdc; simp [Function.update_same]
    · simpa [Function.update_noteq hdc] using hf
  | fulfill hfu =>
    rename_i fuel reqId words
    rcases fulfillRandomWords_ok_cases _ _ _ _ _ _ hfu with ⟨-, rfl⟩ | ⟨-, wm, ws, -, rfl⟩
    · exact ⟨hd, hf⟩
    · constructor
      · rw [findWinners_currentDrawId]
        show d ≤ s.currentDrawId + 1
        omega
      · rw [findWinners_flag _ _ _ _ (by show d ≠ s.currentDrawId + 1; omega)]
        by_cases hdd : d = s.vrfRequestIdToDraw reqId
        · subst hdd
          simpa [Function.update_same] using hf
        · simpa [Function.update_noteq hdd] using hf
  | pauseStep hp =>
    obtain rfl := pause_ok_eq _ _ _ hp
    exact ⟨hd, hf⟩
  | unpauseStep hp =>
    obtain rfl := unpause_ok_eq _ _ _ hp
    exact ⟨hd, hf⟩
  | emergency he =>
    obtain ⟨-, rfl⟩ := emergencyWithdraw_ok_eq _ _ _ _ he
    exact ⟨hd, hf⟩

/-- Flag persistence along a whole run. -/
lemma reach_flag_persist {s0 s : EMState} {t0 t : Nat} (hr : Reach s0 t0 s t)
    (d : Nat) (hd : d ≤ s0.currentDrawId)
    (hf : (s0.draws d).randomnessRequested = true) :
    d ≤ s.currentDrawId ∧ (s.draws d).randomnessRequested = true := by
  induction hr with
  | refl => exact ⟨hd, hf⟩
  | tail _ hst ih => exact step_flag_persist hst d ih.1 ih.2

/-! ## Claim C3 -/

/-- C3: in every reachable state the current draw is not completed (a draw is
marked completed and replaced by a fresh successor within the same settlement
step), so the precondition of `emergencyWithdraw` — paused AND current draw
completed — never holds, and `emergencyWithdraw` always reverts without
transferring the balance. -/
theorem claim_C3_emergencyWithdraw_unreachable (s : EMState) (t : Nat)
    (h : Reachable s t) :
    (s.draws s.currentDrawId).isCompleted = false
    ∧ ¬ (s.paused = true ∧ (s.draws s.currentDrawId).isCompleted = true)
    ∧ ∀ caller, ∃ e, emergencyWithdraw s caller = .error e := by
  have hc := reachable_ClockInv h
  refine ⟨hc.1, ?_, ?_⟩
  · rintro ⟨-, hcomp⟩
    rw [hc.1] at hcomp
    cases hcomp
  · intro caller
    unfold emergencyWithdraw
    by_cases h1 : caller ≠ s.owner
    · exact ⟨.NotOwner, by rw [if_pos h1]⟩
    · rw [if_neg h1]
      by_cases h2 : s.paused
      · rw [if_neg (by simpa using h2)]
        exact ⟨.ActiveDrawExists, by rw [if_pos (by simp [hc.1])]⟩
      · exact ⟨.ExpectedPause, by rw [if_pos (by simpa using h2)]⟩

/-- C3 witness: in the freshly deployed state (which is reachable) the
emergency withdrawal reverts. -/
theorem claim_C3_witness :
    ∃ e, emergencyWithdraw (initialState 0 0) 0 = .error e :=
  (claim_C3_emergencyWithdraw_unreachable (initialState 0 0) 0
    ⟨0, 0, Reach.refl⟩).2.2 0

/-! ## Claim C7 -/

/-- C7: on a reachable state, a resolution request made while the current
draw's randomness flag is set fails with `RandomnessAlreadyRequested`; a
request on a draw that is already completed (with the earlier guards passing,
i.e. window over and flag clear) fails with `DrawAlreadyCompleted`; and after
a successful request, every later request that still targets the same draw
fails, so a resolution request succeeds at most once per draw. -/
theorem claim_C7_request_succeeds_at_most_once (s : EMState) (t : Nat)
    (h : Reachable s t) :
    ((s.draws s.currentDrawId).randomnessRequested = true →
      ∀ reqId, requestDrawRandomness s t s.owner reqId
        = .error .RandomnessAlreadyRequested)
    ∧ (∀ s2 t2 reqId, (s2.draws s2.currentDrawId).drawEndTime < t2 →
        (s2.draws s2.currentDrawId).randomnessRequested = false →
        (s2.draws s2.currentDrawId).isCompleted = true →
        requestDrawRandomness s2 t2 s2.owner reqId = .error .DrawAlreadyCompleted)
    ∧ (∀ reqId s', requestDrawRandomness s t s.owner reqId = .ok s' →
        ∀ s'' t'', Reach s' t s'' t'' → s''.currentDrawId = s.currentDrawId →
          ∀ reqId', ∃ e, requestDrawRandomness s'' t'' s''.owner reqId'
            = .error e) := by
  refine ⟨?_, ?_, ?_⟩
  · intro hflag reqId
    have hend := (reachable_ClockInv h).2 hflag
    unfold requestDrawRandomness
    rw [if_neg (fun hc => hc rfl), if_neg (by omega), if_pos hflag]
  · intro s2 t2 reqId hend hflag hcomp
    unfold requestDrawRandomness
    rw [if_neg (fun hc => hc rfl), if_neg (by omega), if_neg (by simp [hflag]),
      if_pos hcomp]
  · intro reqId s' hsucc s'' t'' hreach hsame reqId'
    obtain ⟨-, -, -, -, rfl⟩ := requestDrawRandomness_ok_eq _ _ _ _ _ hsucc
    have hpersist := reach_flag_persist hreach s.currentDrawId
      (le_refl _) (by simp [Function.update_same])
    unfold requestDrawRandomness
    rw [if_neg (fun hc => hc rfl)]
    by_cases hle : t'' ≤ (s''.draws s''.currentDrawId).drawEndTime
    · exact ⟨.DrawNotActive, by rw [if_pos hle]⟩
    · rw [if_neg hle]
      refine ⟨.RandomnessAlreadyRequested, ?_⟩
      rw [if_pos (by rw [hsame]; exact hpersist.2)]

/-- C7 witness: `pendingState` is reachable with the flag set, and a second
request on it fails with `RandomnessAlreadyRequested`. -/
theorem claim_C7_witness :
    requestDrawRandomness pendingState 604801 pendingState.owner 11
      = .error .RandomnessAlreadyRequested := by
  have hr : Reachable pendingState 604801 :=
    ⟨0, 0, Reach.tail (Reach.tail Reach.refl (Step.tick (by omega)))
      (Step.request (show requestDrawRandomness (initialState 0 0) 604801 0 9
        = .ok pendingState from rfl))⟩
  exact (claim_C7_request_succeeds_at_most_once pendingState 604801 hr).1
    (by decide) 11

/-! ## Claim C9 -/

/-- Bumping one entry of the summand by `c` raises a sum over a list by `c`
per occurrence. -/
lemma sum_map_ite_add (l : List Nat) (f : Nat → Nat) (a c : Nat) :
    (l.map fun x => if x = a then f x + c else f x).sum
      = (l.map f).sum + c * l.count a := by
  induction l with
  | nil => simp
  | cons x rest ih =>
    by_cases hx : x = a
    · subst hx
      simp only [List.map_cons, List.sum_cons, ih, List.count_cons_self,
        Nat.mul_succ, if_true]
      omega
    · simp only [List.map_cons, List.sum_cons, ih, if_neg hx,
        List.count_cons_of_ne (fun hc => hx hc.symm)]
      omega

/-- `TicketInv` holds at deployment. -/
lemma TicketInv_initial (ownerA t0 : Nat) : TicketInv (initialState ownerA t0) := by
  unfold TicketInv initialState _startNewDraw
  simp [Function.update_same, Drw.empty]

/-- One purchase attempt preserves `TicketInv`. -/
lemma applyPurchase_TicketInv (s : EMState) (p : Purchase) (h : TicketInv s) :
    TicketInv (applyPurchase s p) := by
  unfold applyPurchase
  cases hb : buyTicket s p.t p.sender p.value p.mains p.stars with
  | error e => exact h
  | ok s' =>
    obtain ⟨hv, -, -, rfl⟩ := buyTicket_ok_eq _ _ _ _ _ _ _ hb
    obtain ⟨h1, h2, h3, h4, h5⟩ := h
    have hlen : ∀ q,
        ((Function.update (s.playerTickets s.currentDrawId) p.sender
          (s.playerTickets s.currentDrawId p.sender ++
            [{ mainNumbers := (List.finRange 5).map p.mains
               luckyStars := (List.finRange 2).map p.stars
               player := p.sender
               timestamp := p.t }]) : Nat → List Ticket) q).length
        = if q = p.sender
          then (s.playerTickets s.currentDrawId q).length + 1
          else (s.playerTickets s.currentDrawId q).length := by
      intro q
      by_cases hq : q = p.sender
      · subst hq; simp [Function.update_same]
      · rw [Function.update_noteq hq, if_neg hq]
    by_cases hc : (s.draws s.currentDrawId).ticketCounts p.sender = 0
    · -- first ticket of this sender
      have hempty : s.playerTickets s.currentDrawId p.sender = [] := by
        have := h5 p.sender
        rw [hc] at this
        exact (List.length_eq_zero.mp this.symm)
      have hnotmem : p.sender ∉ (s.draws s.currentDrawId).players := by
        intro hmem
        exact ((h4 p.sender).mp hmem) hempty
      refine ⟨?_, ?_, ?_, ?_, ?_⟩ <;>
        simp only [Function.update_same, if_pos hc]
      · rw [h1, hv]
        ring
      · rw [List.map_append, List.sum_append]
        rw [List.map_congr_left (fun q hq => by
          rw [hlen q, if_neg (fun hqs => hnotmem (by rw [← hqs]; exact hq))])]
        simp [hlen, hempty, h2]
      · simp [List.nodup_append, h3, hnotmem]
      · intro q
        by_cases hq : q = p.sender
        · subst hq
          simp [Function.update_same]
        · rw [Function.update_noteq hq]
          simp only [List.mem_append, List.mem_singleton, hq, or_false]
          exact h4 q
      · intro q
        by_cases hq : q = p.sender
        · subst hq
          simp [Function.update_same, hc, hempty]
        · rw [Function.update_noteq hq, Function.update_noteq hq]
          exact h5 q
    · -- repeat buyer
      have hne : s.playerTickets s.currentDrawId p.sender ≠ [] := by
        intro hnil
        exact hc (by rw [h5 p.sender, hnil]; rfl)
      have hmem : p.sender ∈ (s.draws s.currentDrawId).players := (h4 p.sender).mpr hne
      refine ⟨?_, ?_, ?_, ?_, ?_⟩ <;>
        simp only [Function.update_same, if_neg hc]
      · rw [h1, hv]
        ring
      · rw [List.map_congr_left (fun q _ => hlen q), sum_map_ite_add,
          List.count_eq_one_of_mem h3 hmem]
        omega
      · exact h3
      · intro q
        by_cases hq : q = p.sender
        · subst hq
          simp [Function.update_same, hmem]
        · rw [Function.update_noteq hq]
          exact h4 q
      · intro q
        by_cases hq : q = p.sender
        · subst hq
          simp [Function.update_same, h5 p.sender]
        · rw [Function.update_noteq hq, Function.update_noteq hq]
          exact h5 q

/-- Any sequence of purchase attempts preserves `TicketInv`. -/
lemma applyPurchases_TicketInv (ps : List Purchase) :
    ∀ s : EMState, TicketInv s → TicketInv (applyPurchases s ps) := by
  induction ps with
  | nil => intro s h; exact h
  | cons p rest ih =>
    intro s h
    exact ih (applyPurchase s p) (applyPurchase_TicketInv s p h)

/-- C9: after any sequence of ticket-purchase attempts on a fresh deployment
(each accepted purchase updates the state, each rejected one leaves it
unchanged), the current draw satisfies: the pool equals the ticket price
times the ticket counter (hence the sum of the prices of the recorded
tickets), the ticket counter equals the number of stored `Ticket` records,
and the player list names each buyer exactly once — precisely the senders
with at least one recorded ticket. -/
theorem claim_C9_purchase_invariants (ownerA t0 : Nat) (ps : List Purchase) :
    ((applyPurchases (initialState ownerA t0) ps).draws
        (applyPurchases (initialState ownerA t0) ps).currentDrawId).totalPrizePool
      = TICKET_PRICE * ((applyPurchases (initialState ownerA t0) ps).draws
          (applyPurchases (initialState ownerA t0) ps).currentDrawId).totalTickets
    ∧ ((applyPurchases (initialState ownerA t0) ps).draws
        (applyPurchases (initialState ownerA t0) ps).currentDrawId).totalTickets
      = (((applyPurchases (initialState ownerA t0) ps).draws
            (applyPurchases (initialState ownerA t0) ps).currentDrawId).players.map
          (fun p => ((applyPurchases (initialState ownerA t0) ps).playerTickets
            (applyPurchases (initialState ownerA t0) ps).currentDrawId p).length)).sum
    ∧ ((applyPurchases (initialState ownerA t0) ps).draws
        (applyPurchases (initialState ownerA t0) ps).currentDrawId).players.Nodup
    ∧ ∀ p, p ∈ ((applyPurchases (initialState ownerA t0) ps).draws
          (applyPurchases (initialState ownerA t0) ps).currentDrawId).players
        ↔ (applyPurchases (initialState ownerA t0) ps).playerTickets
            (applyPurchases (initialState ownerA t0) ps).currentDrawId p ≠ [] := by
  have h := applyPurchases_TicketInv ps (initialState ownerA t0)
    (TicketInv_initial ownerA t0)
  exact ⟨h.1, h.2.1, h.2.2.1, h.2.2.2.1⟩

end EthMillions
